import Mathlib

/-!
Verification of the per-symbol WAD (Williams Accumulation/Distribution)
crossover watcher in `src/main.py`.

The embedding models floats as rationals (the program only adds, subtracts,
compares and averages prices), the Python `deque(maxlen=SMA_LEN)` as a list
with eviction on append, the `defaultdict` symbol store as an association
list, and the body of `on_message` (lines 91-137) as the pure transition
`advance` / `on_message` below.  The supervisor loop of `main` (lines
140-150) is modelled as a step function on a system state holding the
connection status and the store; the loop never writes the module-level
`states`, which the model reflects.
-/

set_option autoImplicit false

namespace Wad

/-- The relation between the cumulative WAD and its moving average,
`1 if st.wad > sma_val else -1` in the source (line 121); `Unknown` is the
`None` initial value of `last_rel`, written `Option Rel` here. -/
inductive Rel where
  | Above
  | Below
deriving DecidableEq, Repr

/-- Direction of a crossover alert (line 123). -/
inductive Dir where
  | Up
  | Down
deriving DecidableEq, Repr

/-- The fields of a closed candle consumed by `on_message`
(lines 103-106): close, high, low prices and the bar close time `T`. -/
structure Candle where
  close : ℚ
  high : ℚ
  low : ℚ
  ts : ℤ
deriving DecidableEq, Repr

/-- `wad_step` from `src/main.py` lines 46-51:
`+(high-low)` when the close rose, `-(high-low)` when it fell, `0` on a tie. -/
def wad_step (close prev_close high low : ℚ) : ℚ :=
  if close > prev_close then high - low
  else if close < prev_close then -(high - low)
  else 0

/-- `WadState` from `src/main.py` lines 53-62: previous close (None until
seeded), cumulative WAD, the SMA buffer (a deque of max length `SMA_LEN`),
and the last relation (None until the first evaluation). -/
structure WadState where
  prev_close : Option ℚ
  wad : ℚ
  sma_buf : List ℚ
  last_rel : Option Rel
deriving DecidableEq, Repr

/-- The default `WadState()` produced by the `defaultdict` on first access. -/
def initState : WadState :=
  { prev_close := none, wad := 0, sma_buf := [], last_rel := none }

/-- The data carried by a crossover alert (lines 123-130): direction,
close price, cumulative WAD and the SMA value. -/
structure CrossoverEvent where
  direction : Dir
  close : ℚ
  wad : ℚ
  sma : ℚ
deriving DecidableEq, Repr

/-- `deque(maxlen=N).append x`: append on the right, evicting from the left
whatever exceeds the capacity `N` (line 116 together with line 62). -/
def dequeAppend (N : ℕ) (buf : List ℚ) (x : ℚ) : List ℚ :=
  let b := buf ++ [x]
  b.drop (b.length - N)

/-- The relation computed at line 121: `Above` iff strictly `wad > sma`. -/
def relation (wad sma : ℚ) : Rel :=
  if wad > sma then Rel.Above else Rel.Below

/-- `sum(st.sma_buf) / len(st.sma_buf)` from line 119. -/
def smaOf (buf : List ℚ) : ℚ :=
  buf.sum / (buf.length : ℚ)

/-- The indicator-engine core of `on_message` (lines 108-134) acting on one
symbol's state: seed `prev_close` on the first close (lines 109-111),
otherwise accumulate the WAD step (113), update `prev_close` (114), append
to the SMA buffer (116), return during bootstrap (117-118), else compute
the SMA (119) and relation (121), emit an event exactly when a previous
relation exists and differs (122-132), and overwrite `last_rel` (134). -/
def advance (N : ℕ) (st : WadState) (c : Candle) : WadState × Option CrossoverEvent :=
  match st.prev_close with
  | none => ({ st with prev_close := some c.close }, none)
  | some pc =>
    let w := st.wad + wad_step c.close pc c.high c.low
    let buf := dequeAppend N st.sma_buf w
    let st1 : WadState :=
      { prev_close := some c.close, wad := w, sma_buf := buf, last_rel := st.last_rel }
    if buf.length < N then (st1, none)
    else
      let sma := smaOf buf
      let rel := relation w sma
      let ev : Option CrossoverEvent :=
        match st.last_rel with
        | none => none
        | some lr =>
          if rel ≠ lr then
            some { direction := if rel = Rel.Above then Dir.Up else Dir.Down,
                   close := c.close, wad := w, sma := sma }
          else none
      ({ st1 with last_rel := some rel }, ev)

/-- Process a list of closes for one symbol from a given state, collecting
the emitted events in order. -/
def runStates (N : ℕ) (st : WadState) (cs : List Candle) : WadState × List CrossoverEvent :=
  match cs with
  | [] => (st, [])
  | c :: rest =>
    let r := advance N st c
    let rr := runStates N r.1 rest
    (rr.1, r.2.toList ++ rr.2)

/-- The cumulative WAD value after each processed close. -/
def wadTrace (N : ℕ) (st : WadState) (cs : List Candle) : List ℚ :=
  match cs with
  | [] => []
  | c :: rest =>
    let r := advance N st c
    r.1.wad :: wadTrace N r.1 rest

/-- The fields a raw feed message may carry, after envelope unwrapping
(lines 92-95): the symbol string, the `x` final flag, the `c`/`h`/`l`
prices and the `T` close time.  A `none` field is one that is missing or
whose conversion (`float`/`int`) fails in the source, which raises and is
swallowed by the handler's `except` (lines 136-137) before any state is
touched. -/
structure RawMsg where
  sym : Option String
  x : Option Bool
  c : Option ℚ
  h : Option ℚ
  l : Option ℚ
  tT : Option ℤ
deriving DecidableEq, Repr

/-- The upper-cased symbol of a message, `""` when absent (line 95). -/
def symOf (m : RawMsg) : String :=
  (m.sym.getD "").toUpper

/-- The candle-normalizer guards of `on_message` (lines 95-106): drop when
the symbol is empty or not watched, when the bar is not final
(`k.get("x", False)`), or when any consumed field is missing or ill-typed. -/
def parseCandle (watch : List String) (m : RawMsg) : Option (String × Candle) :=
  let s := symOf m
  if s = "" ∨ s ∉ watch then none
  else if m.x.getD false = false then none
  else
    match m.c, m.h, m.l, m.tT with
    | some c, some h, some l, some t =>
      some (s, { close := c, high := h, low := l, ts := t })
    | _, _, _, _ => none

/-- Lookup in the `defaultdict` store: the default `WadState()` when the
symbol has no entry yet (line 65, line 108). -/
def storeGet (store : List (String × WadState)) (s : String) : WadState :=
  match store.lookup s with
  | some st => st
  | none => initState

/-- Write back a symbol's state, creating the entry if absent. -/
def storeSet : List (String × WadState) → String → WadState → List (String × WadState)
  | [], s, v => [(s, v)]
  | (k, w) :: rest, s, v =>
    if k = s then (s, v) :: rest else (k, w) :: storeSet rest s v

/-- The whole `on_message` handler (lines 83-137): parse and validate the
message, and when it survives the guards, advance the matching symbol's
state; a dropped message leaves the store untouched and emits nothing. -/
def on_message (N : ℕ) (watch : List String) (store : List (String × WadState))
    (m : RawMsg) : List (String × WadState) × Option (String × CrossoverEvent) :=
  match parseCandle watch m with
  | none => (store, none)
  | some sc =>
    let r := advance N (storeGet store sc.1) sc.2
    (storeSet store sc.1 r.1, r.2.map (fun e => (sc.1, e)))

/-- Connection status of the feed supervisor loop (`main`, lines 140-150). -/
inductive ConnState where
  | Disconnected
  | Connecting
  | Subscribed
deriving DecidableEq, Repr

/-- The whole process state: the connection status plus the module-level
`states` store (line 65), which `main`'s loop never writes. -/
structure SysState where
  conn : ConnState
  store : List (String × WadState)
deriving DecidableEq, Repr

/-- Events driving the supervisor loop: a delivered feed message, a
transport drop (`on_close` / exception in `run_forever`), and the retry
after the backoff sleep (lines 148-150 looping back to line 142). -/
inductive FeedEvent where
  | msg (m : RawMsg)
  | disconnect
  | reconnectTick
deriving DecidableEq, Repr

/-- One step of the supervisor: messages go through `on_message` against
the shared store; disconnect and reconnect only change the connection
status, mirroring that `main`'s `while True` loop (lines 141-150) rebuilds
the `WebSocketApp` but never touches `states`. -/
def supervisorStep (N : ℕ) (watch : List String) (s : SysState) :
    FeedEvent → SysState × Option (String × CrossoverEvent)
  | FeedEvent.msg m =>
    let r := on_message N watch s.store m
    ({ s with store := r.1 }, r.2)
  | FeedEvent.disconnect => ({ s with conn := ConnState.Disconnected }, none)
  | FeedEvent.reconnectTick => ({ s with conn := ConnState.Subscribed }, none)

/-- A full process restart: fresh interpreter, empty `states` store. -/
def processRestart : SysState :=
  { conn := ConnState.Disconnected, store := [] }

lemma dequeAppend_length (N : ℕ) (buf : List ℚ) (x : ℚ) :
    (dequeAppend N buf x).length = min (buf.length + 1) N := by
  simp [dequeAppend]
  omega

lemma advance_seed (N : ℕ) (st : WadState) (c : Candle) (h : st.prev_close = none) :
    advance N st c = ({ st with prev_close := some c.close }, none) := by
  simp [advance, h]

lemma advance_accum (N : ℕ) (st : WadState) (c : Candle) (pc : ℚ)
    (h : st.prev_close = some pc) :
    (advance N st c).1.wad = st.wad + wad_step c.close pc c.high c.low ∧
      (advance N st c).1.prev_close = some c.close ∧
      (advance N st c).1.sma_buf =
        dequeAppend N st.sma_buf (st.wad + wad_step c.close pc c.high c.low) := by
  simp only [advance, h]
  split <;> simp

/-- The new cumulative WAD after processing `c` against previous close `pc`
(line 113). -/
def newWad (st : WadState) (c : Candle) (pc : ℚ) : ℚ :=
  st.wad + wad_step c.close pc c.high c.low

/-- The SMA buffer after the append of line 116. -/
def newBuf (N : ℕ) (st : WadState) (c : Candle) (pc : ℚ) : List ℚ :=
  dequeAppend N st.sma_buf (newWad st c pc)

/-- The relation computed at line 121 for the state reached after `c`. -/
def newRel (N : ℕ) (st : WadState) (c : Candle) (pc : ℚ) : Rel :=
  relation (newWad st c pc) (smaOf (newBuf N st c pc))

lemma advance_eval (N : ℕ) (st : WadState) (c : Candle) (pc : ℚ)
    (hpc : st.prev_close = some pc) (hfill : N ≤ st.sma_buf.length + 1) :
    advance N st c =
      (let w := st.wad + wad_step c.close pc c.high c.low
       let buf := dequeAppend N st.sma_buf w
       let sma := smaOf buf
       let rel := relation w sma
       ({ prev_close := some c.close, wad := w, sma_buf := buf, last_rel := some rel },
        match st.last_rel with
        | none => none
        | some lr =>
          if rel ≠ lr then
            some { direction := if rel = Rel.Above then Dir.Up else Dir.Down,
                   close := c.close, wad := w, sma := sma }
          else none)) := by
  have hlen : ¬ (dequeAppend N st.sma_buf
      (st.wad + wad_step c.close pc c.high c.low)).length < N := by
    rw [dequeAppend_length]
    omega
  simp only [advance, hpc, hlen, if_false]

lemma advance_boot (N : ℕ) (st : WadState) (c : Candle) (pc : ℚ)
    (hpc : st.prev_close = some pc) (hlt : st.sma_buf.length + 1 < N) :
    advance N st c =
      ({ prev_close := some c.close,
         wad := st.wad + wad_step c.close pc c.high c.low,
         sma_buf := dequeAppend N st.sma_buf (st.wad + wad_step c.close pc c.high c.low),
         last_rel := st.last_rel }, none) := by
  have h : (dequeAppend N st.sma_buf
      (st.wad + wad_step c.close pc c.high c.low)).length < N := by
    rw [dequeAppend_length]
    omega
  simp only [advance, hpc, h, if_true]

lemma wadTrace_cons (N : ℕ) (st : WadState) (c : Candle) (cs : List Candle) :
    wadTrace N st (c :: cs) =
      (advance N st c).1.wad :: wadTrace N (advance N st c).1 cs := rfl

lemma runStates_cons (N : ℕ) (st : WadState) (c : Candle) (cs : List Candle) :
    runStates N st (c :: cs) =
      ((runStates N (advance N st c).1 cs).1,
       (advance N st c).2.toList ++ (runStates N (advance N st c).1 cs).2) := rfl

/-- C2: the first close for a symbol only seeds `previousClose`; the WAD,
the window and the last relation are untouched and no event is emitted. -/
theorem first_close_seeds_only (N : ℕ) (st : WadState) (c : Candle)
    (h : st.prev_close = none) :
    (advance N st c).1.prev_close = some c.close ∧
      (advance N st c).1.wad = st.wad ∧
      (advance N st c).1.sma_buf = st.sma_buf ∧
      (advance N st c).1.last_rel = st.last_rel ∧
      (advance N st c).2 = none := by
  rw [advance_seed N st c h]
  simp

/-- Witness for C2 at the default state (so the WAD indeed remains `0`). -/
theorem first_close_seeds_only_witness :
    (advance 14 initState { close := 7, high := 9, low := 5, ts := 0 }).1.prev_close = some 7 ∧
      (advance 14 initState { close := 7, high := 9, low := 5, ts := 0 }).1.wad = (0 : ℚ) ∧
      (advance 14 initState { close := 7, high := 9, low := 5, ts := 0 }).1.sma_buf = [] ∧
      (advance 14 initState { close := 7, high := 9, low := 5, ts := 0 }).1.last_rel = none ∧
      (advance 14 initState { close := 7, high := 9, low := 5, ts := 0 }).2 = none := by
  have h := first_close_seeds_only 14 initState { close := 7, high := 9, low := 5, ts := 0 }
    (by decide)
  simpa [initState] using h

/-- C3: after the seed, the WAD changes by exactly `+(high-low)` when the
close rose, `-(high-low)` when it fell, and `0` on an equal close, and
`previousClose` is overwritten with the candle's close. -/
theorem wad_accumulation (N : ℕ) (st : WadState) (c : Candle) (pc : ℚ)
    (h : st.prev_close = some pc) :
    (pc < c.close → (advance N st c).1.wad = st.wad + (c.high - c.low)) ∧
      (c.close < pc → (advance N st c).1.wad = st.wad - (c.high - c.low)) ∧
      (c.close = pc → (advance N st c).1.wad = st.wad) ∧
      (advance N st c).1.prev_close = some c.close := by
  obtain ⟨hw, hp, -⟩ := advance_accum N st c pc h
  refine ⟨?_, ?_, ?_, hp⟩
  · intro hlt
    rw [hw, wad_step, if_pos hlt]
  · intro hlt
    rw [hw, wad_step, if_neg (not_lt.mpr hlt.le), if_pos hlt]
    ring
  · intro heq
    rw [hw, wad_step, heq]
    simp

/-- Witness for C3: a falling close subtracts the bar range. -/
theorem wad_accumulation_witness :
    ((10 : ℚ) < 8 →
        (advance 3 { prev_close := some 10, wad := 4, sma_buf := [], last_rel := none }
            { close := 8, high := 9, low := 6, ts := 0 }).1.wad = 4 + (9 - 6)) ∧
      ((8 : ℚ) < 10 →
        (advance 3 { prev_close := some 10, wad := 4, sma_buf := [], last_rel := none }
            { close := 8, high := 9, low := 6, ts := 0 }).1.wad = 4 - (9 - 6)) ∧
      ((8 : ℚ) = 10 →
        (advance 3 { prev_close := some 10, wad := 4, sma_buf := [], last_rel := none }
            { close := 8, high := 9, low := 6, ts := 0 }).1.wad = 4) ∧
      (advance 3 { prev_close := some 10, wad := 4, sma_buf := [], last_rel := none }
          { close := 8, high := 9, low := 6, ts := 0 }).1.prev_close = some 8 :=
  wad_accumulation 3 { prev_close := some 10, wad := 4, sma_buf := [], last_rel := none }
    { close := 8, high := 9, low := 6, ts := 0 } 10 (by decide)

/-- C6: an exact tie `cumulativeWad = smaValue` classifies as `Below`,
never `Above`; `Above` holds exactly when the WAD is strictly greater. -/
theorem tie_classifies_below (w s : ℚ) (h : w = s) :
    relation w s = Rel.Below ∧ relation w s ≠ Rel.Above ∧
      ∀ x y : ℚ, relation x y = Rel.Above ↔ y < x := by
  subst h
  refine ⟨by simp [relation], by simp [relation], ?_⟩
  intro x y
  by_cases hxy : y < x <;> simp [relation, hxy]

/-- Witness for C6 at `w = s = 5`. -/
theorem tie_classifies_below_witness :
    relation 5 5 = Rel.Below ∧ relation 5 5 ≠ Rel.Above ∧
      ∀ x y : ℚ, relation x y = Rel.Above ↔ y < x :=
  tie_classifies_below 5 5 rfl

/-- C1: with the relation already set and the window at capacity, an equal
new relation emits no event, a differing one emits exactly one event whose
direction is `Up` for `Above` and `Down` for `Below`, and in both cases
`lastRelation` is overwritten with the new relation. -/
theorem crossover_hysteresis (N : ℕ) (st : WadState) (c : Candle) (pc : ℚ) (r : Rel)
    (hN : 1 ≤ N) (hpc : st.prev_close = some pc) (hlen : st.sma_buf.length = N)
    (hr : st.last_rel = some r) :
    (newRel N st c pc = r → (advance N st c).2 = none) ∧
      (newRel N st c pc ≠ r →
        (advance N st c).2 = some
          { direction := if newRel N st c pc = Rel.Above then Dir.Up else Dir.Down,
            close := c.close, wad := newWad st c pc, sma := smaOf (newBuf N st c pc) }) ∧
      (advance N st c).1.last_rel = some (newRel N st c pc) := by
  rw [advance_eval N st c pc hpc (by omega), hr]
  by_cases hcase : newRel N st c pc = r <;>
    simp_all [newRel, newBuf, newWad]

/-- Witness for C1: window capacity 2, previous relation `Below`, the new
close pushes the WAD above the average, so one `Up` event fires. -/
theorem crossover_hysteresis_witness :
    (newRel 2 { prev_close := some 10, wad := 3, sma_buf := [0, 3], last_rel := some Rel.Below }
          { close := 12, high := 14, low := 10, ts := 0 } 10 = Rel.Below →
        (advance 2 { prev_close := some 10, wad := 3, sma_buf := [0, 3], last_rel := some Rel.Below }
            { close := 12, high := 14, low := 10, ts := 0 }).2 = none) ∧
      (newRel 2 { prev_close := some 10, wad := 3, sma_buf := [0, 3], last_rel := some Rel.Below }
            { close := 12, high := 14, low := 10, ts := 0 } 10 ≠ Rel.Below →
        (advance 2 { prev_close := some 10, wad := 3, sma_buf := [0, 3], last_rel := some Rel.Below }
            { close := 12, high := 14, low := 10, ts := 0 }).2 = some
          { direction :=
              if newRel 2 { prev_close := some 10, wad := 3, sma_buf := [0, 3], last_rel := some Rel.Below }
                  { close := 12, high := 14, low := 10, ts := 0 } 10 = Rel.Above
              then Dir.Up else Dir.Down,
            close := 12,
            wad := newWad { prev_close := some 10, wad := 3, sma_buf := [0, 3], last_rel := some Rel.Below }
              { close := 12, high := 14, low := 10, ts := 0 } 10,
            sma := smaOf (newBuf 2 { prev_close := some 10, wad := 3, sma_buf := [0, 3], last_rel := some Rel.Below }
              { close := 12, high := 14, low := 10, ts := 0 } 10) }) ∧
      (advance 2 { prev_close := some 10, wad := 3, sma_buf := [0, 3], last_rel := some Rel.Below }
          { close := 12, high := 14, low := 10, ts := 0 }).1.last_rel = some
        (newRel 2 { prev_close := some 10, wad := 3, sma_buf := [0, 3], last_rel := some Rel.Below }
          { close := 12, high := 14, low := 10, ts := 0 } 10) :=
  crossover_hysteresis 2
    { prev_close := some 10, wad := 3, sma_buf := [0, 3], last_rel := some Rel.Below }
    { close := 12, high := 14, low := 10, ts := 0 } 10 Rel.Below
    (by decide) (by decide) (by decide) (by decide)

/-- C5: on an evaluation reached while `lastRelation` is still unknown, no
event is emitted and `lastRelation` is set to the computed relation. -/
theorem first_evaluation_no_event (N : ℕ) (st : WadState) (c : Candle) (pc : ℚ)
    (hN : 1 ≤ N) (hpc : st.prev_close = some pc) (hrel : st.last_rel = none)
    (hfill : N ≤ st.sma_buf.length + 1) :
    (advance N st c).2 = none ∧
      (advance N st c).1.last_rel = some (newRel N st c pc) := by
  rw [advance_eval N st c pc hpc hfill, hrel]
  simp [newRel, newBuf, newWad]

/-- Witness for C5: window capacity 1, first accumulated close fills it. -/
theorem first_evaluation_no_event_witness :
    (advance 1 { prev_close := some 10, wad := 0, sma_buf := [], last_rel := none }
        { close := 11, high := 12, low := 10, ts := 0 }).2 = none ∧
      (advance 1 { prev_close := some 10, wad := 0, sma_buf := [], last_rel := none }
          { close := 11, high := 12, low := 10, ts := 0 }).1.last_rel = some
        (newRel 1 { prev_close := some 10, wad := 0, sma_buf := [], last_rel := none }
          { close := 11, high := 12, low := 10, ts := 0 } 10) :=
  first_evaluation_no_event 1
    { prev_close := some 10, wad := 0, sma_buf := [], last_rel := none }
    { close := 11, high := 12, low := 10, ts := 0 } 10
    (by decide) (by decide) (by decide) (by decide)

lemma advance_buflen_le (N : ℕ) (st : WadState) (c : Candle)
    (h : st.sma_buf.length ≤ N) :
    (advance N st c).1.sma_buf.length ≤ N := by
  cases hpc : st.prev_close with
  | none => rw [advance_seed N st c hpc]; simpa
  | some pc =>
    obtain ⟨-, -, hbuf⟩ := advance_accum N st c pc hpc
    rw [hbuf, dequeAppend_length]
    omega

lemma runStates_buflen_le (N : ℕ) (cs : List Candle) (st : WadState)
    (h : st.sma_buf.length ≤ N) :
    (runStates N st cs).1.sma_buf.length ≤ N := by
  induction cs generalizing st with
  | nil => simpa [runStates]
  | cons c rest ih =>
    simp only [runStates]
    exact ih _ (advance_buflen_le N st c h)

lemma advance_bootstrap (N : ℕ) (st : WadState) (c : Candle)
    (h : (advance N st c).1.sma_buf.length < N) :
    (advance N st c).2 = none ∧ (advance N st c).1.last_rel = st.last_rel := by
  cases hpc : st.prev_close with
  | none => rw [advance_seed N st c hpc]; simp
  | some pc =>
    by_cases hfill : N ≤ st.sma_buf.length + 1
    · exfalso
      obtain ⟨-, -, hbuf⟩ := advance_accum N st c pc hpc
      rw [hbuf, dequeAppend_length] at h
      omega
    · have hlt : (dequeAppend N st.sma_buf
          (st.wad + wad_step c.close pc c.high c.low)).length < N := by
        rw [dequeAppend_length]
        omega
      simp only [advance, hpc, hlt, if_true]
      simp

/-- C4: the moving window never exceeds the capacity `N` — from the initial
state along any close sequence, and across any single step from a state
already within capacity — and while the window is still below capacity no
event is emitted and `lastRelation` is left unchanged. -/
theorem window_invariant_and_bootstrap (N : ℕ) (cs : List Candle) (st : WadState)
    (c : Candle) (hle : st.sma_buf.length ≤ N) :
    (runStates N initState cs).1.sma_buf.length ≤ N ∧
      (advance N st c).1.sma_buf.length ≤ N ∧
      ((advance N st c).1.sma_buf.length < N →
        (advance N st c).2 = none ∧ (advance N st c).1.last_rel = st.last_rel) :=
  ⟨runStates_buflen_le N cs initState (by simp [initState]),
   advance_buflen_le N st c hle,
   fun h => advance_bootstrap N st c h⟩

/-- Witness for C4: capacity 3, one close processed from scratch. -/
theorem window_invariant_and_bootstrap_witness :
    (runStates 3 initState [{ close := 9, high := 11, low := 8, ts := 0 }]).1.sma_buf.length ≤ 3 ∧
      (advance 3 initState { close := 9, high := 11, low := 8, ts := 0 }).1.sma_buf.length ≤ 3 ∧
      ((advance 3 initState { close := 9, high := 11, low := 8, ts := 0 }).1.sma_buf.length < 3 →
        (advance 3 initState { close := 9, high := 11, low := 8, ts := 0 }).2 = none ∧
          (advance 3 initState { close := 9, high := 11, low := 8, ts := 0 }).1.last_rel =
            initState.last_rel) :=
  window_invariant_and_bootstrap 3 [{ close := 9, high := 11, low := 8, ts := 0 }]
    initState { close := 9, high := 11, low := 8, ts := 0 } (by decide)

/-- A concrete six-close scenario whose post-seed WAD trace is
`[2, 2, -1, -1, 5]`: the first close seeds `prev_close = 10`, then the
steps are `+2, 0, -3, 0, +6`. -/
def exCandles : List Candle :=
  [{ close := 10, high := 10, low := 10, ts := 0 },
   { close := 11, high := 12, low := 10, ts := 1 },
   { close := 11, high := 13, low := 9, ts := 2 },
   { close := 10, high := 12, low := 9, ts := 3 },
   { close := 10, high := 11, low := 9, ts := 4 },
   { close := 12, high := 15, low := 9, ts := 5 }]

/-- C7 counterexample: a run realising the claim's WAD sequence
`[2, 2, -1, -1, 5]` with window `N = 3` ends with the moving window
holding `[-1, -1, 5]` (average `1`), not the claimed `[2, -1, 5]`
(average `2`): the claim's window content is inconsistent with its own
WAD sequence, whose last three values are `-1, -1, 5`. -/
theorem example_run_window_refuted :
    wadTrace 3 initState exCandles = [0, 2, 2, -1, -1, 5] ∧
      (runStates 3 initState exCandles).1.sma_buf = [-1, -1, 5] ∧
      (runStates 3 initState exCandles).1.sma_buf ≠ [2, -1, 5] := by
  norm_num [exCandles, runStates, advance, wadTrace, initState, dequeAppend,
    smaOf, relation, wad_step]

/-- C7 as amended: for any six closes whose WAD trace under window `N = 3`
is `[2, 2, -1, -1, 5]` after the seeding first close, no event is emitted
on any close before the last, and the close bringing the WAD to `5` emits
exactly one `Up` event, the window at that point being `[-1, -1, 5]` with
average `1` (not `[2, -1, 5]` with average `2` as the spec's example
inconsistently states). -/
theorem example_trace_single_up_event (c0 c1 c2 c3 c4 c5 : Candle)
    (h : wadTrace 3 initState [c0, c1, c2, c3, c4, c5] = [0, 2, 2, -1, -1, 5]) :
    (runStates 3 initState [c0, c1, c2, c3, c4]).2 = [] ∧
      (runStates 3 initState [c0, c1, c2, c3, c4, c5]).2 =
        [{ direction := Dir.Up, close := c5.close, wad := 5, sma := 1 }] ∧
      (runStates 3 initState [c0, c1, c2, c3, c4, c5]).1.sma_buf = [-1, -1, 5] := by
  have f1 : (advance 3 initState c0).1 = ⟨some c0.close, 0, [], none⟩ := by
    rw [advance_seed 3 initState c0 rfl]
    rfl
  rw [wadTrace_cons, f1] at h
  dsimp only at h
  rw [List.cons.injEq] at h
  obtain ⟨-, h⟩ := h
  have f2 : (advance 3 ⟨some c0.close, 0, [], none⟩ c1).1 =
      ⟨some c1.close, 0 + wad_step c1.close c0.close c1.high c1.low,
        [0 + wad_step c1.close c0.close c1.high c1.low], none⟩ := by
    rw [advance_boot 3 _ c1 c0.close rfl (by norm_num)]
    rfl
  rw [wadTrace_cons, f2] at h
  dsimp only at h
  rw [List.cons.injEq] at h
  obtain ⟨h1, h⟩ := h
  rw [h1] at h
  have f3 : (advance 3 ⟨some c1.close, 2, [2], none⟩ c2).1 =
      ⟨some c2.close, 2 + wad_step c2.close c1.close c2.high c2.low,
        [2, 2 + wad_step c2.close c1.close c2.high c2.low], none⟩ := by
    rw [advance_boot 3 _ c2 c1.close rfl (by norm_num)]
    rfl
  rw [wadTrace_cons, f3] at h
  dsimp only at h
  rw [List.cons.injEq] at h
  obtain ⟨h2, h⟩ := h
  rw [h2] at h
  have f4 : (advance 3 ⟨some c2.close, 2, [2, 2], none⟩ c3).1 =
      ⟨some c3.close, 2 + wad_step c3.close c2.close c3.high c3.low,
        [2, 2, 2 + wad_step c3.close c2.close c3.high c3.low],
        some (relation (2 + wad_step c3.close c2.close c3.high c3.low)
          (smaOf [2, 2, 2 + wad_step c3.close c2.close c3.high c3.low]))⟩ := by
    rw [advance_eval 3 _ c3 c2.close rfl (by norm_num)]
    rfl
  rw [wadTrace_cons, f4] at h
  dsimp only at h
  rw [List.cons.injEq] at h
  obtain ⟨h3, h⟩ := h
  rw [h3] at h
  have hrel3 : relation (-1 : ℚ) (smaOf [2, 2, -1]) = Rel.Below := by
    norm_num [relation, smaOf]
  rw [hrel3] at h
  have f5 : (advance 3 ⟨some c3.close, -1, [2, 2, -1], some Rel.Below⟩ c4).1 =
      ⟨some c4.close, -1 + wad_step c4.close c3.close c4.high c4.low,
        [2, -1, -1 + wad_step c4.close c3.close c4.high c4.low],
        some (relation (-1 + wad_step c4.close c3.close c4.high c4.low)
          (smaOf [2, -1, -1 + wad_step c4.close c3.close c4.high c4.low]))⟩ := by
    rw [advance_eval 3 _ c4 c3.close rfl (by norm_num)]
    rfl
  rw [wadTrace_cons, f5] at h
  dsimp only at h
  rw [List.cons.injEq] at h
  obtain ⟨h4, h⟩ := h
  rw [h4] at h
  have hrel4 : relation (-1 : ℚ) (smaOf [2, -1, -1]) = Rel.Below := by
    norm_num [relation, smaOf]
  rw [hrel4] at h
  have f6 : (advance 3 ⟨some c4.close, -1, [2, -1, -1], some Rel.Below⟩ c5).1 =
      ⟨some c5.close, -1 + wad_step c5.close c4.close c5.high c5.low,
        [-1, -1, -1 + wad_step c5.close c4.close c5.high c5.low],
        some (relation (-1 + wad_step c5.close c4.close c5.high c5.low)
          (smaOf [-1, -1, -1 + wad_step c5.close c4.close c5.high c5.low]))⟩ := by
    rw [advance_eval 3 _ c5 c4.close rfl (by norm_num)]
    rfl
  rw [wadTrace_cons, f6] at h
  dsimp only at h
  rw [List.cons.injEq] at h
  obtain ⟨h5, -⟩ := h
  have e1 : advance 3 initState c0 = (⟨some c0.close, 0, [], none⟩, none) := by
    rw [advance_seed 3 initState c0 rfl]
    rfl
  have e2 : advance 3 ⟨some c0.close, 0, [], none⟩ c1 =
      (⟨some c1.close, 2, [2], none⟩, none) := by
    rw [advance_boot 3 _ c1 c0.close rfl (by norm_num)]
    dsimp only
    rw [h1]
    norm_num [dequeAppend]
  have e3 : advance 3 ⟨some c1.close, 2, [2], none⟩ c2 =
      (⟨some c2.close, 2, [2, 2], none⟩, none) := by
    rw [advance_boot 3 _ c2 c1.close rfl (by norm_num)]
    dsimp only
    rw [h2]
    norm_num [dequeAppend]
  have e4 : advance 3 ⟨some c2.close, 2, [2, 2], none⟩ c3 =
      (⟨some c3.close, -1, [2, 2, -1], some Rel.Below⟩, none) := by
    rw [advance_eval 3 _ c3 c2.close rfl (by norm_num)]
    dsimp only
    rw [h3]
    norm_num [dequeAppend, relation, smaOf]
  have e5 : advance 3 ⟨some c3.close, -1, [2, 2, -1], some Rel.Below⟩ c4 =
      (⟨some c4.close, -1, [2, -1, -1], some Rel.Below⟩, none) := by
    rw [advance_eval 3 _ c4 c3.close rfl (by norm_num)]
    dsimp only
    rw [h4]
    norm_num [dequeAppend, relation, smaOf]
  have e6 : advance 3 ⟨some c4.close, -1, [2, -1, -1], some Rel.Below⟩ c5 =
      (⟨some c5.close, 5, [-1, -1, 5], some Rel.Above⟩,
       some { direction := Dir.Up, close := c5.close, wad := 5, sma := 1 }) := by
    rw [advance_eval 3 _ c5 c4.close rfl (by norm_num)]
    dsimp only
    rw [h5]
    norm_num [dequeAppend, relation, smaOf]
    exact fun hh => Rel.noConfusion hh
  refine ⟨?_, ?_, ?_⟩
  · simp only [runStates_cons, e1, e2, e3, e4, e5]
    simp [runStates]
  · simp only [runStates_cons, e1, e2, e3, e4, e5, e6]
    simp [runStates]
  · simp only [runStates_cons, e1, e2, e3, e4, e5, e6]
    simp [runStates]

/-- Witness for C7's amended theorem at the concrete closes of
`exCandles`. -/
theorem example_trace_single_up_event_witness :
    (runStates 3 initState (exCandles.take 5)).2 = [] ∧
      (runStates 3 initState exCandles).2 =
        [{ direction := Dir.Up, close := 12, wad := 5, sma := 1 }] ∧
      (runStates 3 initState exCandles).1.sma_buf = [-1, -1, 5] :=
  example_trace_single_up_event ⟨10, 10, 10, 0⟩ ⟨11, 12, 10, 1⟩ ⟨11, 13, 9, 2⟩
    ⟨10, 12, 9, 3⟩ ⟨10, 11, 9, 4⟩ ⟨12, 15, 9, 5⟩
    (by norm_num [wadTrace, advance, initState, dequeAppend, smaOf, relation, wad_step])

/-- C8: a message dropped by the guards — non-final bar, unwatched or
missing symbol, or any missing/ill-typed consumed field — leaves the store
exactly as it was (no entry created, no field changed) and emits nothing. -/
theorem malformed_message_no_effect (N : ℕ) (watch : List String)
    (store : List (String × WadState)) (m : RawMsg)
    (h : m.x.getD false = false ∨ symOf m ∉ watch ∨
      m.c = none ∨ m.h = none ∨ m.l = none ∨ m.tT = none) :
    on_message N watch store m = (store, none) := by
  have hp : parseCandle watch m = none := by
    unfold parseCandle
    by_cases hs : symOf m = "" ∨ symOf m ∉ watch
    · simp [hs]
    · push_neg at hs
      rcases h with h | h | h | h | h | h
      · simp [hs.1, hs.2, h]
      · exact absurd h (by simp [hs.2])
      all_goals
        simp only [hs.1, hs.2, or_self, if_false, false_or, eq_self_iff_true]
        split <;> simp_all
  simp [on_message, hp]

/-- Witness for C8: a non-final bar for a watched symbol against a
non-empty store. -/
theorem malformed_message_no_effect_witness :
    on_message 14 ["BTCUSDT"] [("BTCUSDT", initState)]
        { sym := some "BTCUSDT", x := some false, c := some 10, h := some 11,
          l := some 9, tT := some 0 } =
      ([("BTCUSDT", initState)], none) :=
  malformed_message_no_effect 14 ["BTCUSDT"] [("BTCUSDT", initState)]
    { sym := some "BTCUSDT", x := some false, c := some 10, h := some 11,
      l := some 9, tT := some 0 }
    (Or.inl (by decide))

/-- C9: a transport disconnect followed by the reconnect of the supervisor
loop leaves the symbol-state store — hence every symbol's `previousClose`,
`cumulativeWad`, `movingWindow` and `lastRelation` — unchanged; only a
full process restart yields an empty store. -/
theorem reconnect_preserves_state (N : ℕ) (watch : List String) (s : SysState)
    (sym : String) :
    ((supervisorStep N watch (supervisorStep N watch s FeedEvent.disconnect).1
          FeedEvent.reconnectTick).1.store = s.store) ∧
      (storeGet (supervisorStep N watch (supervisorStep N watch s FeedEvent.disconnect).1
          FeedEvent.reconnectTick).1.store sym).prev_close =
        (storeGet s.store sym).prev_close ∧
      (storeGet (supervisorStep N watch (supervisorStep N watch s FeedEvent.disconnect).1
          FeedEvent.reconnectTick).1.store sym).wad =
        (storeGet s.store sym).wad ∧
      (storeGet (supervisorStep N watch (supervisorStep N watch s FeedEvent.disconnect).1
          FeedEvent.reconnectTick).1.store sym).sma_buf =
        (storeGet s.store sym).sma_buf ∧
      (storeGet (supervisorStep N watch (supervisorStep N watch s FeedEvent.disconnect).1
          FeedEvent.reconnectTick).1.store sym).last_rel =
        (storeGet s.store sym).last_rel ∧
      processRestart.store = [] := by
  simp [supervisorStep, processRestart]

lemma advance_one_no_event (st : WadState) (c : Candle)
    (h : st.last_rel ≠ some Rel.Above) :
    (advance 1 st c).2 = none ∧ (advance 1 st c).1.last_rel ≠ some Rel.Above := by
  cases hpc : st.prev_close with
  | none => rw [advance_seed 1 st c hpc]; exact ⟨rfl, h⟩
  | some pc =>
    rw [advance_eval 1 st c pc hpc (by omega)]
    have hbuf : dequeAppend 1 st.sma_buf (st.wad + wad_step c.close pc c.high c.low) =
        [st.wad + wad_step c.close pc c.high c.low] := by
      unfold dequeAppend
      simp only [List.length_append, List.length_cons, List.length_nil]
      rw [Nat.add_sub_cancel, List.drop_left]
    have hrel : relation (st.wad + wad_step c.close pc c.high c.low)
        (smaOf [st.wad + wad_step c.close pc c.high c.low]) = Rel.Below := by
      simp [relation, smaOf]
    cases hlr : st.last_rel with
    | none => simp [hbuf, hrel]
    | some lr =>
      cases lr with
      | Above => exact absurd hlr h
      | Below => simp [hbuf, hrel]

lemma runStates_one_no_event (cs : List Candle) (st : WadState)
    (h : st.last_rel ≠ some Rel.Above) :
    (runStates 1 st cs).2 = [] := by
  induction cs generalizing st with
  | nil => simp [runStates]
  | cons c rest ih =>
    obtain ⟨hev, hinv⟩ := advance_one_no_event st c h
    simp only [runStates, hev, Option.toList_none, List.nil_append]
    exact ih _ hinv

/-- C10: with window length `N = 1` no event is ever emitted: once full,
the window holds only the current WAD, the average equals the WAD, the
strict comparison fails, and the relation is `Below` on every evaluation. -/
theorem window_one_never_fires (cs : List Candle) :
    (runStates 1 initState cs).2 = [] :=
  runStates_one_no_event cs initState (by simp [initState])

end Wad
